import Mathlib

/-!
Shallow embedding of the trading-dashboard core of `src/app.py`:
the price-series simulation (tab1), the `MT5TradingClient` demo/live
broker gateway, and the `SupabaseHTTPClient` persistence gateway.

Python floats are modelled as exact rationals (`ℚ`); the random draws the
code obtains from `random`/`numpy` are passed in explicitly as parameters;
Streamlit session state is passed as an explicit value; network and
terminal interactions are oracles of type `Except`, standing for the body
of the corresponding `try` block.
-/

/-- Python's `round(x, 5)` (round-half-to-even banker's rounding), on exact
rationals: scale by `10^5`, round to the nearest integer taking the even
neighbour on ties, and scale back. -/
def roundHalfEven (x : ℚ) : ℤ :=
  if x - ⌊x⌋ < 1/2 then ⌊x⌋
  else if 1/2 < x - ⌊x⌋ then ⌊x⌋ + 1
  else if Even ⌊x⌋ then ⌊x⌋ else ⌊x⌋ + 1

def round5 (x : ℚ) : ℚ := (roundHalfEven (x * 100000) : ℚ) / 100000

/-- A live/demo quote as built by `MT5TradingClient` (`bid`, `ask`, `last`,
`volume`, `time` keys of the per-symbol dict). -/
structure Quote where
  bid : ℚ
  ask : ℚ
  last : ℚ
  volume : ℕ
  time : ℕ
deriving Repr, DecidableEq

/-- An open position dict as built by `MT5TradingClient.get_positions` /
`_get_demo_positions`. -/
structure Position where
  ticket : ℕ
  symbol : String
  ptype : String
  volume : ℚ
  price_open : ℚ
  price_current : ℚ
  profit : ℚ
  comment : String
deriving Repr, DecidableEq

/-- The `base_prices` dict lookup `base_prices.get(symbol, 100.0)` of
`MT5TradingClient._get_demo_prices`. -/
def base_price_of (symbol : String) : ℚ :=
  if symbol = "EURUSD" then 1.0950
  else if symbol = "GBPUSD" then 1.2650
  else if symbol = "USDJPY" then 148.50
  else if symbol = "AUDUSD" then 0.6750
  else if symbol = "USDCAD" then 1.3450
  else if symbol = "BTCUSD" then 65000
  else if symbol = "ETHUSD" then 3200
  else if symbol = "XAUUSD" then 2050
  else 100.0

/-- The quote `_get_demo_prices` builds for one symbol, given its base
price, the draw `u = random.uniform(-1, 1)`, the draw
`vol = random.randint(100, 1000)` and the epoch time `t`. -/
def demo_quote (base u : ℚ) (vol t : ℕ) : Quote :=
  let variation := base * 0.001 * u
  let bid := base + variation
  let ask := bid + base * 0.0001
  { bid := round5 bid
    ask := round5 ask
    last := round5 (bid + (ask - bid) / 2)
    volume := vol
    time := t }

/-- `MT5TradingClient._get_demo_prices(symbols)`: one quote per requested
symbol, keyed by the symbol; `u` and `vol` supply the per-symbol random
draws, `t` the shared `int(time.time())`. -/
def get_demo_prices (symbols : List String) (u : String → ℚ) (vol : String → ℕ)
    (t : ℕ) : List (String × Quote) :=
  symbols.map (fun s => (s, demo_quote (base_price_of s) (u s) (vol s) t))

/-- The single-element fixture list `_get_demo_positions` stores in
`st.session_state.demo_positions` on first call. -/
def demo_positions_fixture : List Position :=
  [{ ticket := 12345
     symbol := "EURUSD"
     ptype := "BUY"
     volume := 0.1
     price_open := 1.0945
     price_current := 1.0952
     profit := 7.00
     comment := "Demo position" }]

/-- `MT5TradingClient._get_demo_positions`: the session-state slot
`st.session_state.demo_positions` is the explicit `state` argument
(`none` = attribute absent); returns the resulting list together with the
updated session state. -/
def get_demo_positions (state : Option (List Position)) :
    List Position × Option (List Position) :=
  match state with
  | none => (demo_positions_fixture, some demo_positions_fixture)
  | some l => (l, some l)

/-- One point of tab1's `price_data` list:
`price = base_price + np.cumsum(np.random.randn(1) * 100)[0]` (the
cumulative sum of a single sample is that sample, so `price = base + g*100`
for the draw `g`), then `max(price, base_price * 0.8)` — a lower clamp
only, commented "Prevent negative prices". -/
structure PricePoint where
  timestamp : ℕ
  price : ℚ
  volume : ℕ
deriving Repr, DecidableEq

/-- Tab1's `price_data` generation loop: one `PricePoint` per date, with
`draws` the per-iteration pairs `(np.random.randn(1)[0], np.random.randint(100, 1000))`
and the date index standing for the timestamp. -/
def price_data (base_price : ℚ) (draws : List (ℚ × ℕ)) : List PricePoint :=
  (draws.enum).map (fun p =>
    { timestamp := p.1
      price := max (base_price + p.2.1 * 100) (base_price * 0.8)
      volume := p.2.2 })

/-- The spec's claimed band property for the generated series (spec §4.1 /
property 1), stated over the code's `price_data`: every generated price
lies within `[basePrice * floorRatio, basePrice * ceilRatio]`, a clamp
below and above the base price. The code fixes the floor ratio at `0.8`;
the spec leaves `ceilRatio` configurable, so the property is parameterised
by it. -/
def price_band_spec (ceilRatio : ℚ) : Prop :=
  ∀ (base : ℚ) (draws : List (ℚ × ℕ)), ∀ pt ∈ price_data base draws,
    base * 0.8 ≤ pt.price ∧ pt.price ≤ base * ceilRatio

/-- The result object of `mt5.order_send` (fields read by `place_order`). -/
structure SendResult where
  retcode : ℕ
  comment : String
  order : ℕ
deriving Repr, DecidableEq

/-- `mt5.TRADE_RETCODE_DONE` success sentinel. -/
def TRADE_RETCODE_DONE : ℕ := 10009

/-- `mt5.ORDER_TYPE_BUY` / `mt5.ORDER_TYPE_SELL` constants. -/
def ORDER_TYPE_BUY : ℕ := 0

def ORDER_TYPE_SELL : ℕ := 1

/-- The order-request dict built by `MT5TradingClient.place_order` in the
live branch; `price`, `sl`, `tp` are `none` when the corresponding key is
absent from the dict. -/
structure OrderRequest where
  action : String
  symbol : String
  volume : ℚ
  otype : ℕ
  deviation : ℕ
  magic : ℕ
  comment : String
  price : Option ℚ
  sl : Option ℚ
  tp : Option ℚ
deriving Repr, DecidableEq

/-- Python truthiness of an optional float argument, as tested by
`if price:` / `if sl:` / `if tp:` in `place_order`: `None` and `0.0`
are both falsy, so the dict key is only set for a non-zero value. -/
def truthy_field (x : Option ℚ) : Option ℚ :=
  match x with
  | none => none
  | some v => if v = 0 then none else some v

/-- The request dict of `place_order`'s live branch, including the
`if price: ... if sl: ... if tp: ...` conditional fields. -/
def build_order_request (symbol order_type : String) (volume : ℚ)
    (price sl tp : Option ℚ) : OrderRequest :=
  { action := "TRADE_ACTION_DEAL"
    symbol := symbol
    volume := volume
    otype := if order_type.toUpper = "BUY" then ORDER_TYPE_BUY else ORDER_TYPE_SELL
    deviation := 20
    magic := 234000
    comment := "AutoTrader Pro"
    price := truthy_field price
    sl := truthy_field sl
    tp := truthy_field tp }

/-- The f-string `f"DEMO: {order_type} order for {volume} {symbol} placed"`
returned by `place_order` when not connected (demo mode). -/
def demo_order_message (order_type : String) (volume : ℚ) (symbol : String) :
    String :=
  "DEMO: " ++ order_type ++ " order for " ++ toString volume ++ " " ++
    symbol ++ " placed"

/-- `MT5TradingClient.place_order`: `connected` and `mt5Available` mirror
`self.connected` and `MT5_AVAILABLE`; `send` is the oracle for
`mt5.order_send` inside the `try` block (`Except.error` = the block raised). -/
def place_order (connected mt5Available : Bool) (symbol order_type : String)
    (volume : ℚ) (price sl tp : Option ℚ)
    (send : OrderRequest → Except String SendResult) : Bool × String :=
  if !connected || !mt5Available then
    (true, demo_order_message order_type volume symbol)
  else
    match send (build_order_request symbol order_type volume price sl tp) with
    | Except.error e => (false, "Order error: " ++ e)
    | Except.ok result =>
        if result.retcode ≠ TRADE_RETCODE_DONE then
          (false, "Order failed: " ++ result.comment)
        else
          (true, "Order placed successfully! Ticket: " ++ toString result.order)

/-- `MT5TradingClient.get_live_prices`: `live` is the oracle for the whole
`try` block (per-symbol `mt5.symbol_info_tick` loop); on a raise the code
falls back to `_get_demo_prices`, as it does when not connected. -/
def get_live_prices (connected mt5Available : Bool)
    (live : Except String (List (String × Quote)))
    (symbols : List String) (u : String → ℚ) (vol : String → ℕ) (t : ℕ) :
    List (String × Quote) :=
  if !connected || !mt5Available then get_demo_prices symbols u vol t
  else
    match live with
    | Except.ok prices => prices
    | Except.error _ => get_demo_prices symbols u vol t

/-- `MT5TradingClient.get_positions`: `live` is the oracle for the `try`
block around `mt5.positions_get` (`Except.ok none` = the call returned
`None`); demo mode reads/initialises the session-state slot and the
function returns the list with the updated state. -/
def get_positions (connected mt5Available : Bool)
    (live : Except String (Option (List Position)))
    (state : Option (List Position)) :
    List Position × Option (List Position) :=
  if !connected || !mt5Available then get_demo_positions state
  else
    match live with
    | Except.ok none => ([], state)
    | Except.ok (some ps) => (ps, state)
    | Except.error _ => ([], state)

/-- One parsed JSON row of a Supabase REST response body. -/
def Row : Type := List (String × String)

instance : DecidableEq Row := by unfold Row; infer_instance

/-- `url.rstrip('/')` of `SupabaseHTTPClient.__init__`: remove every
trailing `'/'` character. -/
def rstrip_slash (url : String) : String :=
  ⟨(url.data.reverse.dropWhile (fun c => c = '/')).reverse⟩

/-- `self.rest_url = f"{self.url}/rest/v1"` with `self.url = url.rstrip('/')`. -/
def rest_url (url : String) : String := rstrip_slash url ++ "/rest/v1"

/-- The request URL of `SupabaseHTTPClient.select_data`:
`f"{self.rest_url}/{table}?limit={limit}"`. -/
def select_url (url table : String) (limit : ℕ) : String :=
  rest_url url ++ "/" ++ table ++ "?limit=" ++ toString limit

/-- The request URL of `SupabaseHTTPClient.insert_data`:
`f"{self.rest_url}/{table}"`. -/
def insert_url (url table : String) : String := rest_url url ++ "/" ++ table

/-- `SupabaseHTTPClient.insert_data`: `resp` is the oracle for
`requests.post` (`Except.error` = `requests.exceptions.RequestException`
raised, `Except.ok (status, text)` = a response with that status code and
raw body text). -/
def insert_data (resp : Except String (ℕ × String)) : Bool × String :=
  match resp with
  | Except.error e => (false, "❌ Insert error: " ++ e)
  | Except.ok (status, text) =>
      if status ∈ ([200, 201] : List ℕ) then
        (true, "✅ Data inserted successfully!")
      else
        (false, "❌ Insert failed: " ++ text)

/-- `SupabaseHTTPClient.select_data`: `resp` is the oracle for
`requests.get` (`Except.ok (status, body)` = a response with that status
whose `.json()` parses to `body`). -/
def select_data (resp : Except String (ℕ × List Row)) : Bool × List Row :=
  match resp with
  | Except.error _ => (false, [])
  | Except.ok (status, body) =>
      if status = 200 then (true, body) else (false, [])

/-- `pat` occurs as a contiguous substring of `s` (the f-string
interpolation containment claims). -/
def occurs_in (pat s : String) : Prop :=
  ∃ a b : List Char, s.data = a ++ pat.data ++ b

/-- The keys of the `base_prices` dict. -/
def known_symbols : List String :=
  ["EURUSD", "GBPUSD", "USDJPY", "AUDUSD", "USDCAD", "BTCUSD", "ETHUSD", "XAUUSD"]

example : price_data 100 [(10000, 500)] =
    [{ timestamp := 0, price := 1000100, volume := 500 }] := by
  norm_num [price_data, List.enum, max_def]

example : get_demo_positions none =
    (demo_positions_fixture, some demo_positions_fixture) := rfl

example : round5 (1/3) = 33333/100000 := by norm_num [round5, roundHalfEven]
example : round5 (25/1000000) = 2/100000 := by norm_num [round5, roundHalfEven]
example : round5 (35/1000000) = 4/100000 := by
  norm_num [round5, roundHalfEven, Int.even_iff]

lemma string_data_ext {a b : String} (h : a.data = b.data) : a = b := by
  cases a
  cases b
  exact congrArg String.mk (by simpa using h)

/-- Claim C2 (confirmed): in demo mode, the first `_get_demo_positions`
call on a fresh session stores the single-element fixture and returns it;
any call on an already-initialised session returns the stored list
unchanged without regenerating it; hence two consecutive calls return the
same sequence and leave the session state unchanged. -/
theorem get_demo_positions_idempotent :
    get_demo_positions none = (demo_positions_fixture, some demo_positions_fixture) ∧
    demo_positions_fixture.length = 1 ∧
    (∀ l : List Position, get_demo_positions (some l) = (l, some l)) ∧
    (∀ s : Option (List Position),
      get_demo_positions (get_demo_positions s).2
        = ((get_demo_positions s).1, (get_demo_positions s).2)) := by
  refine ⟨rfl, rfl, fun l => rfl, fun s => ?_⟩
  cases s <;> rfl

/-- Claim C4 (confirmed): `place_order` in demo mode (not connected or MT5
unavailable) returns success for every symbol, order type and volume, and
the message contains the order type, the volume and the symbol. -/
theorem place_order_demo_success (connected mt5Available : Bool)
    (symbol order_type : String) (volume : ℚ) (price sl tp : Option ℚ)
    (send : OrderRequest → Except String SendResult)
    (h : (!connected || !mt5Available) = true) :
    (place_order connected mt5Available symbol order_type volume price sl tp send).1
      = true ∧
    occurs_in order_type
      (place_order connected mt5Available symbol order_type volume price sl tp send).2 ∧
    occurs_in (toString volume)
      (place_order connected mt5Available symbol order_type volume price sl tp send).2 ∧
    occurs_in symbol
      (place_order connected mt5Available symbol order_type volume price sl tp send).2 := by
  have hm : place_order connected mt5Available symbol order_type volume price sl tp send
      = (true, demo_order_message order_type volume symbol) := by
    simp [place_order, h]
  rw [hm]
  refine ⟨rfl, ?_, ?_, ?_⟩
  · exact ⟨"DEMO: ".data,
      (" order for " ++ toString volume ++ " " ++ symbol ++ " placed").data,
      by simp [demo_order_message]⟩
  · exact ⟨("DEMO: " ++ order_type ++ " order for ").data,
      (" " ++ symbol ++ " placed").data, by simp [demo_order_message]⟩
  · exact ⟨("DEMO: " ++ order_type ++ " order for " ++ toString volume ++ " ").data,
      " placed".data, by simp [demo_order_message]⟩

/-- Concrete instance of `place_order_demo_success`: a disconnected client,
a BUY order of volume 1 on EURUSD. -/
theorem place_order_demo_success_witness :
    (!false || !true) = true ∧
    ((place_order false true "EURUSD" "BUY" 1 none none none
        (fun _ => Except.error "")).1 = true ∧
      occurs_in "BUY"
        (place_order false true "EURUSD" "BUY" 1 none none none
          (fun _ => Except.error "")).2 ∧
      occurs_in (toString (1 : ℚ))
        (place_order false true "EURUSD" "BUY" 1 none none none
          (fun _ => Except.error "")).2 ∧
      occurs_in "EURUSD"
        (place_order false true "EURUSD" "BUY" 1 none none none
          (fun _ => Except.error "")).2) :=
  ⟨rfl, place_order_demo_success false true "EURUSD" "BUY" 1 none none none
    (fun _ => Except.error "") rfl⟩

/-- Claim C5 (confirmed): `get_live_prices` never propagates a failure of
the live path: whenever the `try` block raises, the function returns the
demo-generated quotes, in both connection states. -/
theorem get_live_prices_degrades (connected mt5Available : Bool) (e : String)
    (symbols : List String) (u : String → ℚ) (vol : String → ℕ) (t : ℕ) :
    get_live_prices connected mt5Available (Except.error e) symbols u vol t
      = get_demo_prices symbols u vol t := by
  unfold get_live_prices
  cases hc : (!connected || !mt5Available) <;> simp [hc]

/-- Claim C6 (confirmed): while disconnected (`connected = False`), every
operation other than `connect` degrades to its demo behaviour regardless of
MT5 availability and of what the live terminal would answer:
`get_live_prices` returns demo prices, `get_positions` returns the demo
position list, and `place_order` returns the synthetic demo success. -/
theorem disconnected_degrades_to_demo (m : Bool)
    (liveQ : Except String (List (String × Quote)))
    (liveP : Except String (Option (List Position)))
    (symbols : List String) (u : String → ℚ) (vol : String → ℕ) (t : ℕ)
    (state : Option (List Position)) (symbol order_type : String) (volume : ℚ)
    (price sl tp : Option ℚ) (send : OrderRequest → Except String SendResult) :
    get_live_prices false m liveQ symbols u vol t = get_demo_prices symbols u vol t ∧
    get_positions false m liveP state = get_demo_positions state ∧
    place_order false m symbol order_type volume price sl tp send
      = (true, demo_order_message order_type volume symbol) :=
  ⟨rfl, rfl, rfl⟩

/-- Claim C9 (confirmed): the live branch of `place_order` tests `price`,
`sl` and `tp` by Python truthiness, so an explicit `0.0` behaves exactly
like an absent argument and the corresponding request field is omitted. -/
theorem place_order_zero_fields_omitted (symbol order_type : String) (volume : ℚ)
    (price sl tp : Option ℚ) :
    build_order_request symbol order_type volume (some 0) sl tp
      = build_order_request symbol order_type volume none sl tp ∧
    build_order_request symbol order_type volume price (some 0) tp
      = build_order_request symbol order_type volume price none tp ∧
    build_order_request symbol order_type volume price sl (some 0)
      = build_order_request symbol order_type volume price sl none ∧
    (build_order_request symbol order_type volume (some 0) (some 0) (some 0)).price
      = none ∧
    (build_order_request symbol order_type volume (some 0) (some 0) (some 0)).sl
      = none ∧
    (build_order_request symbol order_type volume (some 0) (some 0) (some 0)).tp
      = none := by
  simp [build_order_request, truthy_field]

/-- Claim C7 (confirmed): `select_data` returns success with an empty list
when a reachable table answers 200 with an empty body, and returns an error
result exactly when the request raised or the status is not 200. -/
theorem select_data_spec (r : Except String (ℕ × List Row)) :
    (r = Except.ok (200, ([] : List Row)) → select_data r = (true, [])) ∧
    ((select_data r).1 = false ↔
      (∃ e, r = Except.error e) ∨
        ∃ p : ℕ × List Row, r = Except.ok p ∧ p.1 ≠ 200) := by
  constructor
  · rintro rfl
    rfl
  · cases r with
    | error e => simp [select_data]
    | ok p =>
        obtain ⟨st, body⟩ := p
        by_cases h : st = 200 <;> simp [select_data, h]

/-- Concrete instance of `select_data_spec`: a 200 response with an empty
body list yields success with the empty sequence. -/
theorem select_data_spec_witness :
    select_data (Except.ok (200, ([] : List Row))) = (true, []) :=
  (select_data_spec (Except.ok (200, ([] : List Row)))).1 rfl

/-- Claim C8 (confirmed): `insert_data` succeeds exactly when the endpoint
responds with status 200 or 201, and a non-2xx response's raw body text
appears in the returned error message. -/
theorem insert_data_spec (r : Except String (ℕ × String)) :
    ((insert_data r).1 = true ↔
      ∃ st text, r = Except.ok (st, text) ∧ (st = 200 ∨ st = 201)) ∧
    (∀ st text, r = Except.ok (st, text) → ¬(st = 200 ∨ st = 201) →
      occurs_in text (insert_data r).2) := by
  constructor
  · cases r with
    | error e => simp [insert_data]
    | ok p =>
        obtain ⟨st, text⟩ := p
        by_cases h : st = 200 ∨ st = 201 <;>
          simp [insert_data, h, List.mem_cons]
  · rintro st text rfl h
    have hm : insert_data (Except.ok (st, text))
        = (false, "❌ Insert failed: " ++ text) := by
      simp [insert_data, List.mem_cons]
      tauto
    rw [hm]
    exact ⟨"❌ Insert failed: ".data, [], by simp⟩

/-- Concrete instance of `insert_data_spec`: a 404 response with body
"relation does not exist" fails and the message carries the body. -/
theorem insert_data_spec_witness :
    ¬((404 : ℕ) = 200 ∨ (404 : ℕ) = 201) ∧
    occurs_in "relation does not exist"
      (insert_data (Except.ok (404, "relation does not exist"))).2 :=
  ⟨by decide,
    (insert_data_spec (Except.ok (404, "relation does not exist"))).2
      404 "relation does not exist" rfl (by decide)⟩

lemma floor_le_roundHalfEven (x : ℚ) : ⌊x⌋ ≤ roundHalfEven x := by
  unfold roundHalfEven
  split_ifs <;> omega

lemma roundHalfEven_le_floor_add_one (x : ℚ) : roundHalfEven x ≤ ⌊x⌋ + 1 := by
  unfold roundHalfEven
  split_ifs <;> omega

lemma roundHalfEven_mono {x y : ℚ} (h : x ≤ y) :
    roundHalfEven x ≤ roundHalfEven y := by
  rcases lt_or_le ⌊x⌋ ⌊y⌋ with hf | hf
  · calc roundHalfEven x ≤ ⌊x⌋ + 1 := roundHalfEven_le_floor_add_one x
      _ ≤ ⌊y⌋ := by omega
      _ ≤ roundHalfEven y := floor_le_roundHalfEven y
  · have hfe : ⌊y⌋ = ⌊x⌋ := le_antisymm hf (Int.floor_le_floor h)
    unfold roundHalfEven
    rw [hfe]
    split_ifs <;> first | omega | linarith

lemma round5_mono {x y : ℚ} (h : x ≤ y) : round5 x ≤ round5 y := by
  unfold round5
  have h1 : roundHalfEven (x * 100000) ≤ roundHalfEven (y * 100000) :=
    roundHalfEven_mono (by linarith)
  have h2 : (roundHalfEven (x * 100000) : ℚ) ≤ (roundHalfEven (y * 100000) : ℚ) := by
    exact_mod_cast h1
  linarith

lemma base_price_of_pos (s : String) : 0 < base_price_of s := by
  unfold base_price_of
  split_ifs <;> norm_num

lemma base_price_of_unknown {s : String} (h : s ∉ known_symbols) :
    base_price_of s = 100 := by
  simp [known_symbols, List.mem_cons] at h
  obtain ⟨h1, h2, h3, h4, h5, h6, h7, h8⟩ := h
  simp [base_price_of, h1, h2, h3, h4, h5, h6, h7, h8]
  norm_num

lemma demo_quote_bid_le_ask (base u : ℚ) (vol t : ℕ) (hbase : 0 < base) :
    (demo_quote base u vol t).bid ≤ (demo_quote base u vol t).ask := by
  have hb : base + base * 0.001 * u ≤ base + base * 0.001 * u + base * 0.0001 := by
    nlinarith
  simpa [demo_quote] using round5_mono hb

/-- Claim C3 (confirmed): every entry of `_get_demo_prices` has
`ask ≥ bid` (both rounded to 5 decimal places); each entry is exactly the
quote built around `base_prices.get(symbol, 100.0)`, so unknown symbols use
the default base 100.0; every requested symbol gets an entry (and the
function is total, hence never raises). -/
theorem get_demo_prices_ask_ge_bid (symbols : List String) (u : String → ℚ)
    (vol : String → ℕ) (t : ℕ) (p : String × Quote)
    (hp : p ∈ get_demo_prices symbols u vol t) :
    p.2.bid ≤ p.2.ask ∧
    p.2 = demo_quote (base_price_of p.1) (u p.1) (vol p.1) t ∧
    (p.1 ∉ known_symbols → p.2 = demo_quote 100 (u p.1) (vol p.1) t) ∧
    (get_demo_prices symbols u vol t).map Prod.fst = symbols := by
  obtain ⟨s, hs, rfl⟩ := List.mem_map.1 hp
  refine ⟨demo_quote_bid_le_ask _ _ _ _ (base_price_of_pos s), rfl, ?_, ?_⟩
  · intro hunk
    simp only [base_price_of_unknown hunk]
  · simp [get_demo_prices, Function.comp_def]

/-- Concrete instance of `get_demo_prices_ask_ge_bid`: one unknown symbol
"FOO" with a zero uniform draw. -/
theorem get_demo_prices_ask_ge_bid_witness :
    ("FOO", demo_quote 100 0 500 0)
        ∈ get_demo_prices ["FOO"] (fun _ => 0) (fun _ => 500) 0 ∧
    ((demo_quote 100 0 500 0).bid ≤ (demo_quote 100 0 500 0).ask ∧
      demo_quote 100 0 500 0 = demo_quote (base_price_of "FOO") 0 500 0 ∧
      ("FOO" ∉ known_symbols → demo_quote 100 0 500 0 = demo_quote 100 0 500 0) ∧
      (get_demo_prices ["FOO"] (fun _ => 0) (fun _ => 500) 0).map Prod.fst
        = ["FOO"]) := by
  have hb : base_price_of "FOO" = 100 := by
    apply base_price_of_unknown
    decide
  have hmem : ("FOO", demo_quote 100 0 500 0)
      ∈ get_demo_prices ["FOO"] (fun _ => 0) (fun _ => 500) 0 := by
    simp [get_demo_prices, hb]
  exact ⟨hmem,
    get_demo_prices_ask_ge_bid ["FOO"] (fun _ => 0) (fun _ => 500) 0
      ("FOO", demo_quote 100 0 500 0) hmem⟩

lemma head?_dropWhile_eq_false {α : Type} {p : α → Bool} {l : List α} {a : α}
    (h : (l.dropWhile p).head? = some a) : p a = false := by
  induction l with
  | nil => simp [List.dropWhile] at h
  | cons x xs ih =>
      rw [List.dropWhile_cons] at h
      by_cases hx : p x
      · simp only [hx, if_true] at h
        exact ih h
      · rw [if_neg hx] at h
        simp only [List.head?_cons, Option.some.injEq] at h
        subst h
        exact Bool.of_not_eq_true hx

lemma rstrip_slash_no_trailing (url : String) :
    (rstrip_slash url).data.getLast? ≠ some '/' := by
  intro h
  rw [rstrip_slash] at h
  rw [List.getLast?_reverse] at h
  have := head?_dropWhile_eq_false h
  simp at this

lemma rstrip_slash_decomp (url : String) :
    ∃ k, url.data = (rstrip_slash url).data ++ List.replicate k '/' := by
  refine ⟨(url.data.reverse.takeWhile (fun c => c = '/')).length, ?_⟩
  rw [rstrip_slash]
  have hsplit := List.takeWhile_append_dropWhile (p := fun c => c = '/')
    (l := url.data.reverse)
  have hrep : url.data.reverse.takeWhile (fun c => c = '/')
      = List.replicate (url.data.reverse.takeWhile (fun c => c = '/')).length '/' := by
    apply List.eq_replicate_of_mem
    intro b hb
    have := List.mem_takeWhile_imp hb
    simpa using this
  calc url.data = url.data.reverse.reverse := by rw [List.reverse_reverse]
    _ = (url.data.reverse.takeWhile (fun c => c = '/')
          ++ url.data.reverse.dropWhile (fun c => c = '/')).reverse := by rw [hsplit]
    _ = (url.data.reverse.dropWhile (fun c => c = '/')).reverse
          ++ (url.data.reverse.takeWhile (fun c => c = '/')).reverse := by
        rw [List.reverse_append]
    _ = (url.data.reverse.dropWhile (fun c => c = '/')).reverse
          ++ List.replicate (url.data.reverse.takeWhile (fun c => c = '/')).length '/' := by
        rw [← List.reverse_replicate, ← hrep]

lemma rstrip_slash_append_slash (url : String) :
    rstrip_slash (url ++ "/") = rstrip_slash url := by
  have h : (url ++ "/").data = url.data ++ ['/'] := by simp
  rw [rstrip_slash, rstrip_slash, h]
  simp [List.dropWhile_cons]

/-- Claim C10 (confirmed): the constructor's `url.rstrip('/')` removes all
trailing slashes (the stored base never ends in `'/'`, the input is the
base plus some run of trailing slashes, and appending a slash to the input
changes nothing), and every derived request URL has the exact shape
`{stripped-url}/rest/v1/{suffix}` with no doubled slash at either seam. -/
theorem request_url_shape (url table : String) (limit : ℕ) :
    (rstrip_slash url).data.getLast? ≠ some '/' ∧
    (∃ k, url.data = (rstrip_slash url).data ++ List.replicate k '/') ∧
    rstrip_slash (url ++ "/") = rstrip_slash url ∧
    select_url url table limit
      = rstrip_slash url ++ "/rest/v1/" ++ table ++ "?limit=" ++ toString limit ∧
    insert_url url table = rstrip_slash url ++ "/rest/v1/" ++ table := by
  refine ⟨rstrip_slash_no_trailing url, rstrip_slash_decomp url,
    rstrip_slash_append_slash url, ?_, ?_⟩
  · apply string_data_ext
    simp [select_url, rest_url]
  · apply string_data_ext
    simp [insert_url, rest_url]

/-- Concrete instance of `request_url_shape`: a Supabase URL with two
trailing slashes yields a select URL with single slashes throughout. -/
theorem request_url_shape_witness :
    select_url "https://example.supabase.co//" "trades" 100
      = rstrip_slash "https://example.supabase.co//" ++ "/rest/v1/"
          ++ "trades" ++ "?limit=" ++ toString 100 :=
  (request_url_shape "https://example.supabase.co//" "trades" 100).2.2.2.1

/-- Counterexample to claim C1 as stated: the generation loop applies no
upper clamp. Concretely, base price 100 with a single draw of 10000 yields
the price 1000100, far above 100 times the base; and no choice of ceiling
ratio at all makes the claimed two-sided band hold. -/
theorem price_data_no_upper_clamp :
    (∃ pt ∈ price_data 100 [(10000, 500)], (100 : ℚ) * 100 < pt.price) ∧
    ¬ ∃ ceilRatio : ℚ, price_band_spec ceilRatio := by
  constructor
  · refine ⟨{ timestamp := 0, price := 1000100, volume := 500 }, ?_, by norm_num⟩
    have h : price_data 100 [(10000, 500)] =
        [{ timestamp := 0, price := 1000100, volume := 500 }] := by
      norm_num [price_data, List.enum, max_def]
    rw [h]
    exact List.mem_singleton_self _
  · rintro ⟨c, hc⟩
    have hmem : PricePoint.mk 0 (max (100 + max c 0 * 100) (100 * 0.8)) 500
        ∈ price_data 100 [(max c 0, 500)] := by
      simp [price_data, List.enum]
    have hub := (hc 100 [(max c 0, 500)] _ hmem).2
    dsimp only at hub
    have h1 : (100 : ℚ) + max c 0 * 100 ≤ max (100 + max c 0 * 100) (100 * 0.8) :=
      le_max_left _ _
    have h2 : c ≤ max c 0 := le_max_left c 0
    have h3 : (0 : ℚ) ≤ max c 0 := le_max_right c 0
    nlinarith

/-- Claim C1 amended (the lower clamp only): every generated price is at
least `basePrice * 0.8`; the loop clamps only from below, and in the
exact-rational model every generated value is (trivially) finite. -/
theorem price_data_floor (base : ℚ) (draws : List (ℚ × ℕ)) (pt : PricePoint)
    (hpt : pt ∈ price_data base draws) : base * 0.8 ≤ pt.price := by
  simp only [price_data, List.mem_map] at hpt
  obtain ⟨p, hp, rfl⟩ := hpt
  exact le_max_right _ _

/-- Concrete instance of `price_data_floor`: base 100 with draw 10000. -/
theorem price_data_floor_witness :
    ({ timestamp := 0, price := 1000100, volume := 500 } : PricePoint)
        ∈ price_data 100 [(10000, 500)] ∧
    (100 : ℚ) * 0.8 ≤
      ({ timestamp := 0, price := 1000100, volume := 500 } : PricePoint).price := by
  have h : price_data 100 [(10000, 500)] =
      [{ timestamp := 0, price := 1000100, volume := 500 }] := by
    norm_num [price_data, List.enum, max_def]
  have hmem : ({ timestamp := 0, price := 1000100, volume := 500 } : PricePoint)
      ∈ price_data 100 [(10000, 500)] := by
    rw [h]
    exact List.mem_singleton_self _
  exact ⟨hmem, price_data_floor 100 [(10000, 500)] _ hmem⟩
